import Mathlib

/-!
Verification of the per-request data-resolution pipeline of the
graphql-product-marketplace backend, shallowly embedded in Lean 4.

The embedding translates the TypeScript source files:

* cursor pagination helpers and the products resolver
  (modules/product/product.resolvers.ts),
* the myOrders resolver (modules/order/order.resolvers.ts),
* the persisted-query store and APQ manager (lib/persistedQueries.ts),
* the cache service (lib/cache.ts),
* the auth service (lib/auth.ts),
* the GraphQL context guards and DataLoader batch functions
  (lib/context.ts / lib/loaders.ts).

JavaScript runtime primitives used by that code (Buffer base64 and utf-8
conversion, parseInt, Number.toString, the truthiness of the logical-or
operator) are modelled explicitly below, since the behaviour of several
claims hinges on them.  JS numbers that can be NaN are modelled as
Option Int with none standing for NaN.
-/

/-! ## Model of Node Buffer base64 encoding and decoding -/

/-- Character of the standard base64 alphabet at index n (n < 64). -/
def b64chr (n : Nat) : Char :=
  if n < 26 then Char.ofNat (65 + n)
  else if n < 52 then Char.ofNat (97 + (n - 26))
  else if n < 62 then Char.ofNat (48 + (n - 52))
  else if n = 62 then '+' else '/'

/-- Index of a character in the base64 alphabet; none for characters
outside the alphabet (including the padding char), which Node's forgiving
decoder skips. -/
def b64val (c : Char) : Option Nat :=
  if 65 ≤ c.toNat ∧ c.toNat ≤ 90 then some (c.toNat - 65)
  else if 97 ≤ c.toNat ∧ c.toNat ≤ 122 then some (c.toNat - 97 + 26)
  else if 48 ≤ c.toNat ∧ c.toNat ≤ 57 then some (c.toNat - 48 + 52)
  else if c = '+' then some 62
  else if c = '/' then some 63
  else none

/-- Base64-encode a byte list, three bytes to four characters, with
padding, as Buffer.toString with base64 encoding produces. -/
def b64encodeBytes : List Nat → List Char
  | a :: b :: c :: rest =>
    b64chr (a / 4) :: b64chr ((a % 4) * 16 + b / 16) ::
    b64chr ((b % 16) * 4 + c / 64) :: b64chr (c % 64) :: b64encodeBytes rest
  | [a, b] => [b64chr (a / 4), b64chr ((a % 4) * 16 + b / 16), b64chr ((b % 16) * 4), '=']
  | [a] => [b64chr (a / 4), b64chr ((a % 4) * 16), '=', '=']
  | [] => []

/-- Reassemble bytes from a list of 6-bit values, four values to three
bytes, with the shortened trailing groups produced by padding. -/
def b64decodeVals : List Nat → List Nat
  | v1 :: v2 :: v3 :: v4 :: rest =>
    (v1 * 4 + v2 / 16) :: ((v2 % 16) * 16 + v3 / 4) :: ((v3 % 4) * 64 + v4) :: b64decodeVals rest
  | [v1, v2, v3] => [v1 * 4 + v2 / 16, (v2 % 16) * 16 + v3 / 4]
  | [v1, v2] => [v1 * 4 + v2 / 16]
  | _ => []

/-- Model of Buffer.from(bytes).toString with base64 encoding. -/
def bufferToBase64 (bytes : List Nat) : String :=
  String.mk (b64encodeBytes bytes)

/-- Model of Buffer.from(s, base64): Node ignores every character outside
the alphabet (padding included) and decodes the remaining 6-bit stream. -/
def bufferFromBase64 (s : String) : List Nat :=
  b64decodeVals (s.data.filterMap b64val)

/-! ## Model of Node Buffer utf-8 conversion

Well-formed sequences are decoded per RFC 3629; a malformed or overlong
lead byte is decoded to U+FFFD consuming one byte, an approximation of
Node's replacement policy that is exact on the ASCII inputs cursors use. -/

/-- Unicode replacement character U+FFFD. -/
def replChar : Char := Char.ofNat 65533

/-- Whether a byte is a utf-8 continuation byte (10xxxxxx). -/
def utf8Cont (b : Nat) : Bool := 128 ≤ b && b ≤ 191

/-- The utf-8 byte sequence of one scalar value. -/
def utf8EncodeChar (c : Char) : List Nat :=
  let n := c.toNat
  if n < 128 then [n]
  else if n < 2048 then [192 + n / 64, 128 + n % 64]
  else if n < 65536 then [224 + n / 4096, 128 + (n / 64) % 64, 128 + n % 64]
  else [240 + n / 262144, 128 + (n / 4096) % 64, 128 + (n / 64) % 64, 128 + n % 64]

/-- Model of Buffer.from(s) with utf-8 encoding: bytes of a JS string. -/
def utf8Bytes (s : String) : List Nat :=
  (s.data.map utf8EncodeChar).flatten

/-- Scalar value to character, with surrogates and out-of-range values
replaced by U+FFFD. -/
def charFromScalar (n : Nat) : Char :=
  if 55296 ≤ n ∧ n ≤ 57343 then replChar
  else if 1114111 < n then replChar
  else Char.ofNat n

/-- Decode one character from a byte and the remaining byte stream,
returning the character and the bytes not consumed. -/
def utf8DecodeStep (b : Nat) (t : List Nat) : Char × List Nat :=
  if b < 128 then (Char.ofNat b, t)
  else if b < 194 then (replChar, t)
  else if b < 224 then
    match t with
    | b2 :: t2 =>
      if utf8Cont b2 then (Char.ofNat ((b - 192) * 64 + (b2 - 128)), t2) else (replChar, t)
    | [] => (replChar, [])
  else if b < 240 then
    match t with
    | b2 :: b3 :: t3 =>
      if utf8Cont b2 && utf8Cont b3 then
        (charFromScalar ((b - 224) * 4096 + (b2 - 128) * 64 + (b3 - 128)), t3)
      else (replChar, t)
    | _ => (replChar, t)
  else if b < 245 then
    match t with
    | b2 :: b3 :: b4 :: t4 =>
      if utf8Cont b2 && utf8Cont b3 && utf8Cont b4 then
        (charFromScalar ((b - 240) * 262144 + (b2 - 128) * 4096 + (b3 - 128) * 64 + (b4 - 128)), t4)
      else (replChar, t)
    | _ => (replChar, t)
  else (replChar, t)

/-- Decode with explicit fuel; every step consumes at least one byte, so
fuel equal to the byte count always suffices. -/
def utf8DecodeFuel : Nat → List Nat → List Char
  | 0, _ => []
  | _ + 1, [] => []
  | fuel + 1, b :: t =>
    (utf8DecodeStep b t).1 :: utf8DecodeFuel fuel (utf8DecodeStep b t).2

/-- Decode a byte list to the characters of a JS string, as
Buffer.toString with utf-8 encoding produces. -/
def utf8Decode (l : List Nat) : List Char :=
  utf8DecodeFuel l.length l

/-- Model of Buffer.toString with utf-8 encoding. -/
def bytesToString (l : List Nat) : String :=
  String.mk (utf8Decode l)

/-! ## Model of JS parseInt and Number.toString for naturals -/

/-- Whitespace characters trimmed by JS parseInt. -/
def jsWhitespace (c : Char) : Bool :=
  c = ' ' || c = '\t' || c = '\n' || c = '\r' || c = '\x0b' || c = '\x0c'

/-- Decimal digit character, as parseInt with radix 10 accepts. -/
def jsDigit (c : Char) : Bool := 48 ≤ c.toNat && c.toNat ≤ 57

/-- Hexadecimal digit character, for the 0x prefix form of parseInt. -/
def jsHexDigit (c : Char) : Bool :=
  jsDigit c || (97 ≤ c.toNat && c.toNat ≤ 102) || (65 ≤ c.toNat && c.toNat ≤ 70)

/-- Numeric value of one hexadecimal digit character. -/
def hexCharVal (c : Char) : Nat :=
  if jsDigit c then c.toNat - 48
  else if 97 ≤ c.toNat then c.toNat - 87
  else c.toNat - 55

/-- Left fold of decimal digit characters onto an accumulator. -/
def decDigitsVal : List Char → Nat → Nat
  | [], acc => acc
  | c :: cs, acc => decDigitsVal cs (acc * 10 + (c.toNat - 48))

/-- Left fold of hexadecimal digit characters onto an accumulator. -/
def hexDigitsVal : List Char → Nat → Nat
  | [], acc => acc
  | c :: cs, acc => hexDigitsVal cs (acc * 16 + hexCharVal c)

/-- Magnitude part of parseInt: an 0x / 0X prefix switches to radix 16,
otherwise the longest decimal digit prefix is read; no digits is NaN. -/
def parseIntDigits (cs : List Char) : Option Nat :=
  if cs.head? = some '0' ∧ (cs.tail.head? = some 'x' ∨ cs.tail.head? = some 'X') then
    let ds := cs.tail.tail.takeWhile jsHexDigit
    if ds.isEmpty then none else some (hexDigitsVal ds 0)
  else
    let ds := cs.takeWhile jsDigit
    if ds.isEmpty then none else some (decDigitsVal ds 0)

/-- Model of JS parseInt(s) (default radix): trim leading whitespace, an
optional sign, then the digit prefix; none models the NaN result. -/
def parseIntJS (s : String) : Option Int :=
  let cs := s.data.dropWhile jsWhitespace
  if cs.head? = some '-' then (parseIntDigits cs.tail).map (fun m => -(m : Int))
  else if cs.head? = some '+' then (parseIntDigits cs.tail).map (fun m => (m : Int))
  else (parseIntDigits cs).map (fun m => (m : Int))

/-- Decimal digit characters of n, least significant first. -/
def natDigitsRev (n : Nat) : List Char :=
  if n < 10 then [Char.ofNat (48 + n)]
  else Char.ofNat (48 + n % 10) :: natDigitsRev (n / 10)
decreasing_by omega

/-- Model of Number.prototype.toString for a non-negative integer. -/
def jsNatToString (n : Nat) : String :=
  String.mk (natDigitsRev n).reverse

/-! ## Cursor encoding (product.resolvers.ts, order.resolvers.ts) -/

/-- Translation of encodeCursor: Buffer.from(id).toString(base64). -/
def encodeCursor (id : String) : String :=
  bufferToBase64 (utf8Bytes id)

/-- Translation of decodeCursor: Buffer.from(cursor, base64).toString(utf-8). -/
def decodeCursor (cursor : String) : String :=
  bytesToString (bufferFromBase64 cursor)

/-! ## Pagination input validation and the shared resolver pagination logic

Translated from modules/product/product.resolvers.ts (Query.products and
Query.searchProducts) and modules/order/order.resolvers.ts
(Query.myOrders); the three resolvers share this code verbatim.  The
entity filter and the DAO are abstracted: the backing search is a
parameter returning rows and a total count.  GraphQL Int arguments are
modelled as Int. -/

/-- Arguments of the CursorInput GraphQL input object, in schema order. -/
structure CursorInput where
  first : Option Int
  after : Option String
  last : Option Int
  before : Option String
deriving DecidableEq

/-- The zod constraint z.number().positive().max(100).optional() of
CursorInputSchema on the first and last fields. -/
def posMax100 : Option Int → Bool
  | none => true
  | some f => 0 < f && f ≤ 100

/-- CursorInputSchema.parse: some on success, none models a thrown
ZodError (after and before are unconstrained optional strings). -/
def cursorInputParse (p : CursorInput) : Option CursorInput :=
  if posMax100 p.first && posMax100 p.last then some p else none

/-- JS logical-or on an optional number and a default: undefined and 0
are falsy. -/
def jsNumOr (x : Option Int) (d : Int) : Int :=
  match x with
  | some v => if v = 0 then d else v
  | none => d

/-- The limit computation of the three paginated resolvers:
Math.min(validatedPagination.first || validatedPagination.last || 20, 100). -/
def effLimit (vp : CursorInput) : Int :=
  min (jsNumOr vp.first (jsNumOr vp.last 20)) 100

/-- The offset computation of the three paginated resolvers:
validatedPagination.after ? parseInt(decodeCursor(after)) : 0.
The result is a JS number that may be NaN, hence Option Int. -/
def effOffset (vp : CursorInput) : Option Int :=
  match vp.after with
  | some a => if a = "" then some 0 else parseIntJS (decodeCursor a)
  | none => some 0

/-- NaN-aware addition of a JS number and a plain number. -/
def jsNumAdd (x : Option Int) (k : Int) : Option Int :=
  x.map (fun v => v + k)

/-- NaN-aware comparison x < y; every comparison with NaN is false. -/
def jsNumLt (x : Option Int) (y : Int) : Bool :=
  match x with
  | some v => decide (v < y)
  | none => false

/-- NaN-aware comparison x > y; every comparison with NaN is false. -/
def jsNumGt (x : Option Int) (y : Int) : Bool :=
  match x with
  | some v => decide (y < v)
  | none => false

/-- Number.prototype.toString on a JS number: NaN prints as NaN. -/
def jsNumToString : Option Int → String
  | none => "NaN"
  | some n =>
    if n < 0 then String.mk ('-' :: (natDigitsRev (-n).toNat).reverse)
    else jsNatToString n.toNat

/-- One edge of a GraphQL connection. -/
structure Edge (α : Type) where
  node : α
  cursor : String
deriving DecidableEq

/-- The pageInfo object of a GraphQL connection. -/
structure PageInfo where
  hasNextPage : Bool
  hasPreviousPage : Bool
  startCursor : Option String
  endCursor : Option String
deriving DecidableEq

/-- A GraphQL connection result. -/
structure Connection (α : Type) where
  edges : List (Edge α)
  pageInfo : PageInfo
  totalCount : Int
deriving DecidableEq

/-- Edge list and page-info construction shared by products,
searchProducts and myOrders (product.resolvers.ts lines 160-181):
edges carry encodeCursor((offset + index).toString()), and
hasNextPage = offset + limit < totalCount,
hasPreviousPage = offset > 0,
startCursor/endCursor come from the first/last edge or are null. -/
def buildConnection {α : Type} (offset : Option Int) (limit : Int)
    (rows : List α) (totalCount : Int) : Connection α :=
  let edges := rows.enum.map
    (fun p => Edge.mk p.2 (encodeCursor (jsNumToString (jsNumAdd offset (p.1 : Int)))))
  let hasNextPage := jsNumLt (jsNumAdd offset limit) totalCount
  let hasPreviousPage := jsNumGt offset 0
  let startCursor := if 0 < edges.length then edges.head?.map Edge.cursor else none
  let endCursor := if 0 < edges.length then edges.getLast?.map Edge.cursor else none
  ⟨edges, ⟨hasNextPage, hasPreviousPage, startCursor, endCursor⟩, totalCount⟩

/-- Errors a paginated resolver can surface; a thrown ZodError is
re-thrown as the Validation error message. -/
inductive ResolverError where
  | validationError
  | notFound
deriving DecidableEq

/-- Query.products (and, with the same body, Query.searchProducts and the
pagination part of Query.myOrders): validate the pagination input, derive
limit and offset, call the backing search with them, and build the
connection.  The search function stands for productDAO.searchProducts. -/
def productsQuery {α : Type} (search : Int → Option Int → List α × Int)
    (pagination : CursorInput) : Except ResolverError (Connection α) :=
  match cursorInputParse pagination with
  | none => .error .validationError
  | some vp =>
    let limit := effLimit vp
    let offset := effOffset vp
    let res := search limit offset
    .ok (buildConnection offset limit res.1 res.2)

/-! ## Persisted query store and APQ manager (lib/persistedQueries.ts)

The in-memory Map tier of PersistedQueryStore is modelled as an
association list; the Redis tier is conditioned on useRedis, which is
false outside production (NODE_ENV check in the constructor), and its
failure path only logs, so it is modelled as disabled. -/

/-- The memory tier of PersistedQueryStore: hash to query body. -/
def PQStore : Type := List (String × String)

/-- PersistedQueryStore.getQuery via the memory Map. -/
def pqGetQuery (store : PQStore) (hash : String) : Option String :=
  (List.lookup hash store)

/-- PersistedQueryStore.addQuery: Map.set on the memory tier. -/
def pqAddQuery (store : PQStore) (hash query : String) : PQStore :=
  (hash, query) :: store

/-- JS truthiness of an optional string: undefined and the empty string
are falsy. -/
def strTruthy : Option String → Bool
  | none => false
  | some s => !(s = "")

/-- An inbound GraphQL request as APQManager.handleRequest sees it:
query is the request body field, hash is
extensions.persistedQuery.sha256Hash. -/
structure APQRequest where
  query : Option String
  hash : Option String
deriving DecidableEq

/-- The {query?, hash?} object handleRequest resolves to. -/
structure APQResult where
  query : Option String
  hash : Option String
deriving DecidableEq

/-- Errors thrown by APQManager.handleRequest. -/
inductive APQError where
  | notFound (hash : String)
deriving DecidableEq

/-- Translation of APQManager.handleRequest, branch for branch:
1. if extensions.persistedQuery.sha256Hash is truthy, look the hash up
   and either return the stored query or throw the not-found error;
2. otherwise, if query and the hash are both truthy, register the query
   under the hash and return both;
3. otherwise return the query alone. -/
def apqHandleRequest (store : PQStore) (req : APQRequest) :
    Except APQError (APQResult × PQStore) :=
  if strTruthy req.hash then
    match pqGetQuery store (req.hash.getD "") with
    | some persistedQuery => .ok (⟨some persistedQuery, none⟩, store)
    | none => .error (.notFound (req.hash.getD ""))
  else
    if strTruthy req.query && strTruthy req.hash then
      .ok (⟨req.query, req.hash⟩, pqAddQuery store (req.hash.getD "") (req.query.getD ""))
    else
      .ok (⟨req.query, none⟩, store)

/-! ## Cache service (lib/cache.ts)

The redis client is modelled as a record of fallible operations; the
CacheService state is the optional client plus the isConnected flag. -/

/-- The redis client operations CacheService calls; each may throw. -/
structure RedisClient where
  rget : String → Except Unit (Option String)
  rset : String → String → Except Unit Unit
  rsetEx : String → Nat → String → Except Unit Unit
  rdel : String → Except Unit Nat
  rexists : String → Except Unit Nat

/-- The mutable state of CacheService. -/
structure CacheState where
  client : Option RedisClient
  isConnected : Bool

/-- JS truthiness of an optional number (the ttlSeconds parameter):
undefined and 0 are falsy. -/
def natTruthy : Option Nat → Bool
  | none => false
  | some n => !(n = 0)

/-- CacheService.get: null when the client is absent or disconnected,
the client result on success, null when the client throws. -/
def cacheGet (st : CacheState) (key : String) : Option String :=
  match st.client, st.isConnected with
  | none, _ => none
  | some _, false => none
  | some c, true =>
    match c.rget key with
    | .ok v => v
    | .error _ => none

/-- CacheService.set: false when the client is absent or disconnected,
setEx or set depending on ttlSeconds truthiness, false when the client
throws, true on success. -/
def cacheSet (st : CacheState) (key value : String) (ttlSeconds : Option Nat) : Bool :=
  match st.client, st.isConnected with
  | none, _ => false
  | some _, false => false
  | some c, true =>
    if natTruthy ttlSeconds then
      match c.rsetEx key (ttlSeconds.getD 0) value with
      | .ok _ => true
      | .error _ => false
    else
      match c.rset key value with
      | .ok _ => true
      | .error _ => false

/-- CacheService.del: false when the client is absent, disconnected, or
throws, true otherwise. -/
def cacheDel (st : CacheState) (key : String) : Bool :=
  match st.client, st.isConnected with
  | none, _ => false
  | some _, false => false
  | some c, true =>
    match c.rdel key with
    | .ok _ => true
    | .error _ => false

/-- CacheService.exists: result === 1 on success, false when the client
is absent, disconnected, or throws. -/
def cacheExists (st : CacheState) (key : String) : Bool :=
  match st.client, st.isConnected with
  | none, _ => false
  | some _, false => false
  | some c, true =>
    match c.rexists key with
    | .ok result => result == 1
    | .error _ => false

/-- A redis client whose every operation raises. -/
def clientErroring (c : RedisClient) : Prop :=
  (∀ k, c.rget k = .error ()) ∧ (∀ k v, c.rset k v = .error ()) ∧
  (∀ k t v, c.rsetEx k t v = .error ()) ∧ (∀ k, c.rdel k = .error ()) ∧
  (∀ k, c.rexists k = .error ())

/-! ## Authentication (lib/auth.ts and createContext in lib/context.ts)

jwt.verify is an external library call; it is modelled as a parameter
that either returns the decoded payload or throws one of the jwt error
kinds. -/

/-- Accumulator pass of JS String.prototype.split with a one-character
separator. -/
def jsSplitAux (sep : Char) : List Char → List Char → List String
  | [], cur => [String.mk cur.reverse]
  | c :: rest, cur =>
    if c = sep then String.mk cur.reverse :: jsSplitAux sep rest []
    else jsSplitAux sep rest (c :: cur)

/-- Model of JS String.prototype.split with a one-character separator:
the empty string splits to a single empty field, and separators at the
ends produce empty fields. -/
def jsSplit (sep : Char) (s : String) : List String :=
  jsSplitAux sep s.data []

/-- The decoded JWT payload (the request Identity). -/
structure JWTPayload where
  userId : String
  email : String
  isAdmin : Bool
  iat : Option Int
  exp : Option Int
deriving DecidableEq

/-- The failure kinds of jwt.verify. -/
inductive JwtError where
  | malformed
  | expired
  | badSignature
  | other
deriving DecidableEq

/-- AuthService.verifyAccessToken: jwt.verify in a try/catch, any thrown
error becomes null. -/
def verifyAccessToken (verify : String → Except JwtError JWTPayload)
    (token : String) : Option JWTPayload :=
  match verify token with
  | .ok payload => some payload
  | .error _ => none

/-- AuthService.extractTokenFromHeader: null for a falsy header, null
unless the header splits on one space into Bearer and a token, and
parts[1] || null turns an empty token into null. -/
def extractTokenFromHeader : Option String → Option String
  | none => none
  | some h =>
    if h = "" then none
    else if (jsSplit ' ' h).length ≠ 2 ∨ (jsSplit ' ' h).getD 0 "" ≠ "Bearer" then none
    else if (jsSplit ' ' h).getD 1 "" = "" then none
    else some ((jsSplit ' ' h).getD 1 "")

/-- The user resolution of createContext: if the authorization header is
truthy, extract the token; if the token is truthy, verify it; the user
stays null on every other path. -/
def resolveUser (verify : String → Except JwtError JWTPayload) :
    Option String → Option JWTPayload
  | none => none
  | some h =>
    if h = "" then none
    else
      match extractTokenFromHeader (some h) with
      | some token => verifyAccessToken verify token
      | none => none

/-! ## Authorization guards (lib/context.ts)

The guards read only context.user, so they are modelled on the optional
payload directly. -/

/-- The errors the guards throw, by message. -/
inductive GuardError where
  | authenticationRequired
  | adminRequired
  | accessDenied
deriving DecidableEq

/-- requireAuth: throw Authentication required when context.user is
null, else return the user. -/
def requireAuth (user : Option JWTPayload) : Except GuardError JWTPayload :=
  match user with
  | none => .error .authenticationRequired
  | some u => .ok u

/-- requireAdmin: requireAuth, then throw Admin privileges required for a
non-admin. -/
def requireAdmin (user : Option JWTPayload) : Except GuardError JWTPayload :=
  match requireAuth user with
  | .error e => .error e
  | .ok u => if !u.isAdmin then .error .adminRequired else .ok u

/-- requireOwnership: requireAuth, then throw Access denied when the
user neither matches resourceUserId nor is admin. -/
def requireOwnership (user : Option JWTPayload) (resourceUserId : String) :
    Except GuardError JWTPayload :=
  match requireAuth user with
  | .error e => .error e
  | .ok u =>
    if !(u.userId = resourceUserId) && !u.isAdmin then .error .accessDenied
    else .ok u

/-- The ownership rule as the specification words it: no identity fails
with the authentication error; an identity whose subject differs from the
owner and that is not privileged fails with the permission error; every
other identity is admitted and returned. -/
def specOwnershipGuard (user : Option JWTPayload) (ownerId : String) :
    Except GuardError JWTPayload :=
  match user with
  | none => .error .authenticationRequired
  | some u =>
    if u.userId = ownerId ∨ u.isAdmin then .ok u else .error .accessDenied

/-! ## DataLoader batch functions (createLoaders in lib/context.ts)

Every loader is one of two shapes: the by-id loaders
(userById, productsByIds) map each requested id to
fetched.find(v => v.id === id) || null, and the relationship loaders
(productsBySeller, ordersByUser, orderItemsByOrder, reviewsByProduct,
cartItemsByUser) map each owner key to
fetched.filter(v => relKey(v) === key).  The DAO row types are abstract;
the key accessor is a parameter. -/

/-- The batch function of the single-entity loaders:
ids.map(id => fetched.find(v => key v === id) || null). -/
def batchById {α : Type} (key : α → String) (ids : List String)
    (fetched : List α) : List (Option α) :=
  ids.map (fun id => fetched.find? (fun v => key v == id))

/-- The batch function of the one-to-many relationship loaders:
ownerKeys.map(k => fetched.filter(v => relKey v === k)). -/
def batchByRelationship {α : Type} (relKey : α → String) (ownerKeys : List String)
    (fetched : List α) : List (List α) :=
  ownerKeys.map (fun k => fetched.filter (fun v => relKey v == k))

/-- A user row, reduced to the field the loader inspects. -/
structure UserRow where
  id : String

/-- A product row, reduced to the fields the loaders inspect. -/
structure ProductRow where
  id : String
  seller_id : String

/-- An order row, reduced to the fields the loaders inspect. -/
structure OrderRow where
  id : String
  user_id : String

/-- An order item row, reduced to the fields the loaders inspect. -/
structure OrderItemRow where
  id : String
  order_id : String

/-- A review row, reduced to the fields the loaders inspect. -/
structure ReviewRow where
  id : String
  product_id : String

/-- A cart item row, reduced to the fields the loaders inspect. -/
structure CartItemRow where
  id : String
  user_id : String

/-- Batch function of the userById loader. -/
def userByIdBatch : List String → List UserRow → List (Option UserRow) :=
  batchById UserRow.id

/-- Batch function of the productsByIds loader. -/
def productsByIdsBatch : List String → List ProductRow → List (Option ProductRow) :=
  batchById ProductRow.id

/-- Batch function of the productsBySeller loader. -/
def productsBySellerBatch : List String → List ProductRow → List (List ProductRow) :=
  batchByRelationship ProductRow.seller_id

/-- Batch function of the ordersByUser loader. -/
def ordersByUserBatch : List String → List OrderRow → List (List OrderRow) :=
  batchByRelationship OrderRow.user_id

/-- Batch function of the orderItemsByOrder loader. -/
def orderItemsByOrderBatch : List String → List OrderItemRow → List (List OrderItemRow) :=
  batchByRelationship OrderItemRow.order_id

/-- Batch function of the reviewsByProduct loader. -/
def reviewsByProductBatch : List String → List ReviewRow → List (List ReviewRow) :=
  batchByRelationship ReviewRow.product_id

/-- Batch function of the cartItemsByUser loader. -/
def cartItemsByUserBatch : List String → List CartItemRow → List (List CartItemRow) :=
  batchByRelationship CartItemRow.user_id

/-! ## Lemmas and claim theorems -/

theorem b64val_b64chr {n : Nat} (h : n < 64) : b64val (b64chr n) = some n := by
  interval_cases n <;> decide

theorem b64val_pad : b64val '=' = none := by decide

theorem b64_roundtrip : ∀ l : List Nat, (∀ x ∈ l, x < 256) →
    b64decodeVals ((b64encodeBytes l).filterMap b64val) = l
  | [], _ => by simp [b64encodeBytes, b64decodeVals]
  | [a], h => by
    have ha : a < 256 := h a (by simp)
    have h1 : b64val (b64chr (a / 4)) = some (a / 4) := b64val_b64chr (by omega)
    have h2 : b64val (b64chr ((a % 4) * 16)) = some ((a % 4) * 16) := b64val_b64chr (by omega)
    simp only [b64encodeBytes, List.filterMap_cons, h1, h2, b64val_pad, List.filterMap_nil,
      b64decodeVals, List.cons.injEq, and_true]
    omega
  | [a, b], h => by
    have ha : a < 256 := h a (by simp)
    have hb : b < 256 := h b (by simp)
    have h1 : b64val (b64chr (a / 4)) = some (a / 4) := b64val_b64chr (by omega)
    have h2 : b64val (b64chr ((a % 4) * 16 + b / 16)) = some ((a % 4) * 16 + b / 16) :=
      b64val_b64chr (by omega)
    have h3 : b64val (b64chr ((b % 16) * 4)) = some ((b % 16) * 4) := b64val_b64chr (by omega)
    simp only [b64encodeBytes, List.filterMap_cons, h1, h2, h3, b64val_pad, List.filterMap_nil,
      b64decodeVals, List.cons.injEq, and_true]
    omega
  | a :: b :: c :: rest, h => by
    have ha : a < 256 := h a (by simp)
    have hb : b < 256 := h b (by simp)
    have hc : c < 256 := h c (by simp)
    have ih := b64_roundtrip rest (fun x hx => h x (by simp [hx]))
    have h1 : b64val (b64chr (a / 4)) = some (a / 4) := b64val_b64chr (by omega)
    have h2 : b64val (b64chr ((a % 4) * 16 + b / 16)) = some ((a % 4) * 16 + b / 16) :=
      b64val_b64chr (by omega)
    have h3 : b64val (b64chr ((b % 16) * 4 + c / 64)) = some ((b % 16) * 4 + c / 64) :=
      b64val_b64chr (by omega)
    have h4 : b64val (b64chr (c % 64)) = some (c % 64) := b64val_b64chr (by omega)
    simp only [b64encodeBytes, List.filterMap_cons, h1, h2, h3, h4,
      b64decodeVals, ih, List.cons.injEq]
    refine ⟨by omega, by omega, by omega, trivial⟩

theorem utf8DecodeStep_ascii {b : Nat} (h : b < 128) (t : List Nat) :
    utf8DecodeStep b t = (Char.ofNat b, t) := by
  simp [utf8DecodeStep, h]

theorem utf8Decode_ascii : ∀ cs : List Char, (∀ c ∈ cs, c.toNat < 128) →
    utf8Decode (cs.map Char.toNat) = cs
  | [], _ => by simp [utf8Decode, utf8DecodeFuel]
  | c :: rest, h => by
    have hc : c.toNat < 128 := h c (by simp)
    have ih := utf8Decode_ascii rest (fun x hx => h x (by simp [hx]))
    simp only [utf8Decode, List.map_cons, List.length_cons, utf8DecodeFuel,
      utf8DecodeStep_ascii hc, List.length_map] at ih ⊢
    rw [Char.ofNat_toNat, ih]

theorem utf8Bytes_ascii : ∀ cs : List Char, (∀ c ∈ cs, c.toNat < 128) →
    utf8Bytes (String.mk cs) = cs.map Char.toNat
  | [], _ => by simp [utf8Bytes]
  | c :: rest, h => by
    have hc : c.toNat < 128 := h c (by simp)
    have ih := utf8Bytes_ascii rest (fun x hx => h x (by simp [hx]))
    simp only [utf8Bytes, List.map_cons, List.flatten_cons] at ih ⊢
    rw [utf8EncodeChar]
    simp only [hc, if_pos]
    simpa using ih

theorem toNat_ofNat_digit {d : Nat} (h : d < 10) : (Char.ofNat (48 + d)).toNat = 48 + d := by
  interval_cases d <;> decide

theorem natDigitsRev_bounds : ∀ n : Nat, ∀ c ∈ natDigitsRev n, 48 ≤ c.toNat ∧ c.toNat ≤ 57
  | n, c, hc => by
    by_cases h : n < 10
    · rw [natDigitsRev, if_pos h] at hc
      simp only [List.mem_singleton] at hc
      subst hc
      rw [toNat_ofNat_digit h]
      omega
    · rw [natDigitsRev, if_neg h] at hc
      simp only [List.mem_cons] at hc
      rcases hc with hc | hc
      · subst hc
        rw [toNat_ofNat_digit (Nat.mod_lt n (by omega))]
        omega
      · exact natDigitsRev_bounds (n / 10) c hc
decreasing_by omega

theorem natDigitsRev_ne_nil (n : Nat) : natDigitsRev n ≠ [] := by
  by_cases h : n < 10
  · rw [natDigitsRev, if_pos h]; simp
  · rw [natDigitsRev, if_neg h]; simp

theorem decDigitsVal_append (xs : List Char) (c : Char) :
    ∀ acc, decDigitsVal (xs ++ [c]) acc = decDigitsVal xs acc * 10 + (c.toNat - 48) := by
  induction xs with
  | nil => intro acc; simp [decDigitsVal]
  | cons x xs ih => intro acc; simp [decDigitsVal, ih]

theorem decDigitsVal_natDigitsRev : ∀ n acc : Nat,
    decDigitsVal (natDigitsRev n).reverse acc = acc * 10 ^ (natDigitsRev n).length + n
  | n, acc => by
    by_cases h : n < 10
    · rw [natDigitsRev, if_pos h]
      simp [decDigitsVal, toNat_ofNat_digit h]
      try ring
    · rw [natDigitsRev, if_neg h]
      simp only [List.reverse_cons, List.length_cons]
      rw [decDigitsVal_append, decDigitsVal_natDigitsRev (n / 10) acc,
        toNat_ofNat_digit (Nat.mod_lt n (by omega))]
      ring_nf
      omega
decreasing_by omega

theorem jsDigit_of_bounds {c : Char} (h1 : 48 ≤ c.toNat) (h2 : c.toNat ≤ 57) :
    jsDigit c = true := by
  simp only [jsDigit, Bool.and_eq_true, decide_eq_true_eq]
  omega

theorem digitChar_props {c : Char} (h1 : 48 ≤ c.toNat) (h2 : c.toNat ≤ 57) :
    jsWhitespace c = false ∧ ¬c = '-' ∧ ¬c = '+' ∧ ¬c = 'x' ∧ ¬c = 'X' := by
  have key : ∀ d : Nat, 48 ≤ d → d ≤ 57 →
      jsWhitespace (Char.ofNat d) = false ∧ ¬Char.ofNat d = '-' ∧ ¬Char.ofNat d = '+' ∧
      ¬Char.ofNat d = 'x' ∧ ¬Char.ofNat d = 'X' := by
    intro d hd1 hd2
    interval_cases d <;> exact ⟨by decide, by decide, by decide, by decide, by decide⟩
  have := key c.toNat h1 h2
  rwa [Char.ofNat_toNat] at this

theorem parseIntJS_jsNatToString (n : Nat) : parseIntJS (jsNatToString n) = some (n : Int) := by
  have hb : ∀ c ∈ (natDigitsRev n).reverse, 48 ≤ c.toNat ∧ c.toNat ≤ 57 :=
    fun c hc => natDigitsRev_bounds n c (List.mem_reverse.mp hc)
  obtain ⟨c0, rest, hcs⟩ : ∃ c0 rest, (natDigitsRev n).reverse = c0 :: rest := by
    rcases hr : (natDigitsRev n).reverse with _ | ⟨a, t⟩
    · exact absurd (List.reverse_eq_nil_iff.mp hr) (natDigitsRev_ne_nil n)
    · exact ⟨a, t, rfl⟩
  have hc0 := hb c0 (hcs ▸ List.mem_cons_self c0 rest)
  obtain ⟨hws0, hneg0, hplus0, _, _⟩ := digitChar_props hc0.1 hc0.2
  have hdata : (jsNatToString n).data = c0 :: rest := by
    show (natDigitsRev n).reverse = c0 :: rest
    exact hcs
  have hval : decDigitsVal (c0 :: rest) 0 = n := by
    rw [← hcs, decDigitsVal_natDigitsRev]
    simp
  have htake : (c0 :: rest).takeWhile jsDigit = c0 :: rest := by
    refine List.takeWhile_eq_self_iff.mpr ?_
    intro c hc
    have := hb c (hcs ▸ hc)
    exact jsDigit_of_bounds this.1 this.2
  simp only [parseIntJS, hdata, List.dropWhile_cons, hws0, Bool.false_eq_true, if_false,
    List.head?_cons, Option.some.injEq, hneg0, if_false, hplus0]
  rw [parseIntDigits]
  have hcond : ¬((c0 :: rest).head? = some '0' ∧
      ((c0 :: rest).tail.head? = some 'x' ∨ (c0 :: rest).tail.head? = some 'X')) := by
    rintro ⟨h0, hx⟩
    rcases hrest : rest with _ | ⟨c1, rest2⟩
    · rw [hrest] at hx; simp at hx
    · rw [hrest] at hx
      simp only [List.tail_cons, List.head?_cons, Option.some.injEq] at hx
      have hc1 := hb c1 (by rw [hcs, hrest]; simp)
      obtain ⟨_, _, _, hx1, hX1⟩ := digitChar_props hc1.1 hc1.2
      tauto
  rw [if_neg hcond]
  simp only [htake, List.isEmpty_cons, Bool.false_eq_true, if_false]
  rw [hval]
  simp

theorem cursor_roundtrip_ascii (s : String) (h : ∀ c ∈ s.data, c.toNat < 128) :
    decodeCursor (encodeCursor s) = s := by
  obtain ⟨cs⟩ := s
  have hbytes : utf8Bytes (String.mk cs) = cs.map Char.toNat := utf8Bytes_ascii cs h
  have hlt : ∀ x ∈ cs.map Char.toNat, x < 256 := by
    intro x hx
    simp only [List.mem_map] at hx
    obtain ⟨c, hc, rfl⟩ := hx
    have := h c hc
    omega
  unfold decodeCursor encodeCursor bufferToBase64 bufferFromBase64 bytesToString
  rw [hbytes]
  rw [show (String.mk (b64encodeBytes (cs.map Char.toNat))).data =
    b64encodeBytes (cs.map Char.toNat) from rfl]
  rw [b64_roundtrip _ hlt, utf8Decode_ascii cs h]

/-- C5: cursor encoding is reversible: for every non-negative integer
offset o, the base64 decode of the encoded cursor yields the decimal
string of o back, and parseInt recovers o itself, i.e.
decodeCursor(encodeCursor(o)) == o. -/
theorem cursor_encode_decode_roundtrip (o : Nat) :
    decodeCursor (encodeCursor (jsNatToString o)) = jsNatToString o ∧
    parseIntJS (decodeCursor (encodeCursor (jsNatToString o))) = some (o : Int) := by
  have hascii : ∀ c ∈ (jsNatToString o).data, c.toNat < 128 := by
    intro c hc
    have := natDigitsRev_bounds o c (List.mem_reverse.mp hc)
    omega
  have h1 := cursor_roundtrip_ascii (jsNatToString o) hascii
  exact ⟨h1, by rw [h1]; exact parseIntJS_jsNatToString o⟩

/-- C4: for every paginated list result built from an offset, a limit,
the fetched rows and a totalCount: hasNextPage equals
offset + limit < totalCount, hasPreviousPage equals offset > 0, and
startCursor/endCursor are null exactly when the edge list is empty,
otherwise the encoded offsets of the first and last returned row. -/
theorem connection_page_info {α : Type} (offset limit totalCount : Int) (rows : List α) :
    (buildConnection (some offset) limit rows totalCount).edges.length = rows.length ∧
    ((buildConnection (some offset) limit rows totalCount).pageInfo.hasNextPage = true ↔
      offset + limit < totalCount) ∧
    ((buildConnection (some offset) limit rows totalCount).pageInfo.hasPreviousPage = true ↔
      0 < offset) ∧
    (rows = [] →
      (buildConnection (some offset) limit rows totalCount).pageInfo.startCursor = none ∧
      (buildConnection (some offset) limit rows totalCount).pageInfo.endCursor = none) ∧
    (rows ≠ [] →
      (buildConnection (some offset) limit rows totalCount).pageInfo.startCursor =
        some (encodeCursor (jsNumToString (some offset))) ∧
      (buildConnection (some offset) limit rows totalCount).pageInfo.endCursor =
        some (encodeCursor (jsNumToString (some (offset + ((rows.length : Int) - 1)))))) := by
  refine ⟨?_, ?_, ?_, ?_, ?_⟩
  · simp [buildConnection]
  · simp [buildConnection, jsNumAdd, jsNumLt]
  · simp [buildConnection, jsNumGt]
  · rintro rfl
    simp [buildConnection]
  · intro hne
    obtain ⟨r, rest, rfl⟩ := List.exists_cons_of_ne_nil hne
    constructor
    · simp [buildConnection, List.enum_cons, jsNumAdd]
    · have hlast : ((r :: rest).enum.map
          (fun p => Edge.mk p.2
            (encodeCursor (jsNumToString (jsNumAdd (some offset) (p.1 : Int)))))).getLast? =
          some (Edge.mk ((r :: rest).getLast (by simp))
            (encodeCursor (jsNumToString (some (offset + (rest.length : Int)))))) := by
        rw [List.getLast?_eq_getElem?]
        have hlen : ((r :: rest).enum.map
            (fun p => Edge.mk p.2
              (encodeCursor (jsNumToString (jsNumAdd (some offset) (p.1 : Int)))))).length =
            rest.length + 1 := by simp
        rw [hlen]
        simp only [Nat.add_sub_cancel, List.getElem?_map, List.getElem?_enum]
        rw [List.getElem?_eq_getElem (by simp)]
        simp [jsNumAdd, List.getLast_eq_getElem]
      simp only [buildConnection, hlast]
      have harith : offset + ((((r :: rest).length : Nat) : Int) - 1) = offset + (rest.length : Int) := by
        simp only [List.length_cons]
        push_cast
        ring
      rw [harith]
      simp

/-- Witness for C4 at the boundary example totalCount 25, limit 10,
offset 20 with five returned rows. -/
theorem connection_page_info_witness :
    ((buildConnection (some 20) 10 ["a", "b", "c", "d", "e"] 25).pageInfo.hasNextPage = true ↔
      (20 : Int) + 10 < 25) ∧
    (buildConnection (some 20) 10 ["a", "b", "c", "d", "e"] 25).pageInfo.startCursor =
      some (encodeCursor (jsNumToString (some 20))) :=
  ⟨(connection_page_info 20 10 25 ["a", "b", "c", "d", "e"]).2.1,
   ((connection_page_info 20 10 25 ["a", "b", "c", "d", "e"]).2.2.2.2 (by decide)).1⟩

/-- C2 counterexample: a products request with first = 150 is rejected by
CursorInputSchema (z.number().positive().max(100)) with a validation
error; the limit is not capped to 100 and the request does not proceed. -/
theorem products_first_150_rejected :
    productsQuery (fun _ _ => (([] : List Unit), 0)) ⟨some 150, none, none, none⟩ =
      .error .validationError := rfl

/-- C2 (amended): out-of-range limits are rejected rather than capped;
for every pagination input that passes schema validation the effective
page limit lies in [1, 100]. -/
theorem effLimit_in_range (p vp : CursorInput) (h : cursorInputParse p = some vp) :
    1 ≤ effLimit vp ∧ effLimit vp ≤ 100 := by
  unfold cursorInputParse at h
  split at h
  case isTrue hcond =>
    rw [Option.some.injEq] at h
    subst h
    rw [Bool.and_eq_true] at hcond
    obtain ⟨h1, h2⟩ := hcond
    have ha : 1 ≤ jsNumOr p.first (jsNumOr p.last 20) := by
      rcases hf : p.first with _ | f <;> rcases hl : p.last with _ | l <;>
        rw [hf] at h1 <;> rw [hl] at h2 <;>
        simp only [posMax100, Bool.and_eq_true, decide_eq_true_eq] at h1 h2 <;>
        simp only [jsNumOr] <;>
        (try split_ifs) <;> omega
    unfold effLimit
    exact ⟨le_min ha (by omega), min_le_right _ _⟩
  case isFalse => simp at h

/-- Witness for the amended C2 at the empty pagination input. -/
theorem effLimit_in_range_witness :
    cursorInputParse ⟨none, none, none, none⟩ = some ⟨none, none, none, none⟩ ∧
    (1 ≤ effLimit ⟨none, none, none, none⟩ ∧ effLimit ⟨none, none, none, none⟩ ≤ 100) :=
  ⟨rfl, effLimit_in_range ⟨none, none, none, none⟩ ⟨none, none, none, none⟩ rfl⟩

/-- C3 counterexample: the undecodable after-cursor YWJj (base64 of abc)
is not rejected: the offset becomes NaN and the products query succeeds
with an empty page instead of failing with an InvalidCursor or
MalformedRequest error. -/
theorem garbage_cursor_not_rejected :
    effOffset ⟨none, some "YWJj", none, none⟩ = none ∧
    productsQuery (fun _ _ => (([] : List Unit), 0)) ⟨none, some "YWJj", none, none⟩ =
      .ok ⟨[], ⟨false, false, none, none⟩, 0⟩ :=
  ⟨rfl, rfl⟩

/-- C3 (amended): an after-cursor whose decode does not parse as a number
is never surfaced as an error: decoding is total, parseInt yields NaN,
and the validated request proceeds, passing the NaN offset to the backing
search. -/
theorem undecodable_cursor_proceeds {α : Type} (search : Int → Option Int → List α × Int)
    (p vp : CursorInput) (a : String)
    (h : cursorInputParse p = some vp) (ha : vp.after = some a) (hne : a ≠ "")
    (hnan : parseIntJS (decodeCursor a) = none) :
    effOffset vp = none ∧
    productsQuery search p =
      .ok (buildConnection none (effLimit vp) (search (effLimit vp) none).1
        (search (effLimit vp) none).2) := by
  have hoff : effOffset vp = none := by
    unfold effOffset
    rw [ha]
    simp [hne, hnan]
  refine ⟨hoff, ?_⟩
  unfold productsQuery
  rw [h]
  simp only [hoff]

/-- Witness for the amended C3 at the concrete garbage cursor YWJj. -/
theorem undecodable_cursor_proceeds_witness :
    effOffset ⟨none, some "YWJj", none, none⟩ = none ∧
    productsQuery (fun _ _ => (([] : List Unit), 0)) ⟨none, some "YWJj", none, none⟩ =
      .ok (buildConnection none (effLimit ⟨none, some "YWJj", none, none⟩) [] 0) :=
  undecodable_cursor_proceeds (fun _ _ => (([] : List Unit), 0))
    ⟨none, some "YWJj", none, none⟩ ⟨none, some "YWJj", none, none⟩ "YWJj"
    rfl rfl (by decide) (by decide)

/-- C10 counterexample: with first and last omitted but an after-cursor
present (NQ==, the encoding of offset 5), the default limit is 20 yet the
starting offset is 5, not 0. -/
theorem default_pagination_counterexample :
    cursorInputParse ⟨none, some "NQ==", none, none⟩ =
      some ⟨none, some "NQ==", none, none⟩ ∧
    effLimit ⟨none, some "NQ==", none, none⟩ = 20 ∧
    effOffset ⟨none, some "NQ==", none, none⟩ = some 5 ∧ (5 : Int) ≠ 0 :=
  ⟨rfl, rfl, rfl, by decide⟩

/-- C10 (amended): when first and last are omitted the hardcoded default
limit is 20, and the starting offset is 0 exactly when the after cursor
is also absent or empty, the offset being derived from after alone. -/
theorem default_pagination (vp : CursorInput) (h1 : vp.first = none) (h2 : vp.last = none) :
    effLimit vp = 20 ∧ ((vp.after = none ∨ vp.after = some "") → effOffset vp = some 0) := by
  constructor
  · have hor : jsNumOr vp.first (jsNumOr vp.last 20) = 20 := by
      rw [h1, h2]
      rfl
    unfold effLimit
    rw [hor]
    decide
  · rintro (h3 | h3) <;> (unfold effOffset; rw [h3]; try simp)

/-- Witness for the amended C10 at the empty pagination input. -/
theorem default_pagination_witness :
    effLimit ⟨none, none, none, none⟩ = 20 ∧ effOffset ⟨none, none, none, none⟩ = some 0 :=
  ⟨(default_pagination ⟨none, none, none, none⟩ rfl rfl).1,
   (default_pagination ⟨none, none, none, none⟩ rfl rfl).2 (Or.inl rfl)⟩

/-- C1: a request carrying both a hash and a full query body, with the
hash not yet registered, does not register-then-execute: handleRequest
throws the persisted-query-not-found error, because the hash-only branch
runs first whenever a hash is present and the register branch is
unreachable.  Evaluated at the concrete failing input. -/
theorem apq_hash_with_body_not_found :
    apqHandleRequest [] ⟨some "query { products { edges { node { id } } } }", some "h1"⟩ =
      .error (.notFound "h1") ∧
    strTruthy (some "query { products { edges { node { id } } } }") = true :=
  ⟨rfl, rfl⟩

/-- C8: when the cache client is absent, disconnected, or raises on every
operation, every cache operation behaves as a miss and none throws: get
returns null and set/del/exists return false, for every key, value and
ttl. -/
theorem cache_degrades_to_miss (st : CacheState) (key value : String) (ttl : Option Nat)
    (h : st.client = none ∨ st.isConnected = false ∨
      ∀ c, st.client = some c → clientErroring c) :
    cacheGet st key = none ∧ cacheSet st key value ttl = false ∧
    cacheDel st key = false ∧ cacheExists st key = false := by
  obtain ⟨cl, conn⟩ := st
  rcases h with h | h | h
  · simp only at h
    subst h
    cases conn <;> simp [cacheGet, cacheSet, cacheDel, cacheExists]
  · simp only at h
    subst h
    rcases cl with _ | c <;> simp [cacheGet, cacheSet, cacheDel, cacheExists]
  · rcases cl with _ | c
    · simp [cacheGet, cacheSet, cacheDel, cacheExists]
    · obtain ⟨hg, hs, hsx, hd, he⟩ := h c rfl
      cases conn
      · simp [cacheGet, cacheSet, cacheDel, cacheExists]
      · simp [cacheGet, cacheSet, cacheDel, cacheExists, hg, hs, hsx, hd, he]

/-- Witness for C8: a connected client raising on every operation. -/
theorem cache_degrades_to_miss_witness :
    cacheGet ⟨some ⟨fun _ => .error (), fun _ _ => .error (), fun _ _ _ => .error (),
      fun _ => .error (), fun _ => .error ()⟩, true⟩ "k" = none ∧
    cacheSet ⟨some ⟨fun _ => .error (), fun _ _ => .error (), fun _ _ _ => .error (),
      fun _ => .error (), fun _ => .error ()⟩, true⟩ "k" "v" (some 60) = false ∧
    cacheDel ⟨some ⟨fun _ => .error (), fun _ _ => .error (), fun _ _ _ => .error (),
      fun _ => .error (), fun _ => .error ()⟩, true⟩ "k" = false ∧
    cacheExists ⟨some ⟨fun _ => .error (), fun _ _ => .error (), fun _ _ _ => .error (),
      fun _ => .error (), fun _ => .error ()⟩, true⟩ "k" = false :=
  cache_degrades_to_miss _ "k" "v" (some 60)
    (Or.inr (Or.inr (fun c hc => by
      cases hc
      exact ⟨fun _ => rfl, fun _ _ => rfl, fun _ _ _ => rfl, fun _ => rfl, fun _ => rfl⟩)))

/-- C7: authentication fails closed and never throws: an absent header
resolves to null; a header that is not exactly Bearer plus a token
resolves to null; a token whose verification throws (malformed, expired,
or signature-invalid) resolves to null; and a verified token resolves to
the full payload. -/
theorem auth_fails_closed (verify : String → Except JwtError JWTPayload)
    (authHeader : Option String) :
    (authHeader = none → resolveUser verify authHeader = none) ∧
    (∀ h, authHeader = some h →
      ((jsSplit ' ' h).length ≠ 2 ∨ (jsSplit ' ' h).getD 0 "" ≠ "Bearer") →
      resolveUser verify authHeader = none) ∧
    (∀ h token e, authHeader = some h → extractTokenFromHeader (some h) = some token →
      verify token = .error e → resolveUser verify authHeader = none) ∧
    (∀ h token payload, authHeader = some h → extractTokenFromHeader (some h) = some token →
      verify token = .ok payload → resolveUser verify authHeader = some payload) := by
  refine ⟨?_, ?_, ?_, ?_⟩
  · rintro rfl
    rfl
  · rintro h rfl hbad
    simp only [resolveUser]
    split_ifs with hemp
    · rfl
    · have hex : extractTokenFromHeader (some h) = none := by
        simp only [extractTokenFromHeader]
        rw [if_neg hemp, if_pos hbad]
      rw [hex]
  · rintro h token e rfl hex hverr
    simp only [resolveUser]
    split_ifs with hemp
    · rfl
    · rw [hex]
      simp only [verifyAccessToken]
      rw [hverr]
  · rintro h token payload rfl hex hvok
    simp only [resolveUser]
    split_ifs with hemp
    · subst hemp
      simp [extractTokenFromHeader] at hex
    · rw [hex]
      simp only [verifyAccessToken]
      rw [hvok]

/-- Witness for C7: a Bearer header whose token verification reports an
expired signature resolves to null. -/
theorem auth_fails_closed_witness :
    resolveUser (fun _ => .error JwtError.expired) (some "Bearer abc") = none :=
  (auth_fails_closed (fun _ => .error JwtError.expired) (some "Bearer abc")).2.2.1
    "Bearer abc" "abc" JwtError.expired rfl (by decide) rfl

/-- C9: requireOwnership admits exactly the owner or a privileged
identity: for every context user and owner id it fails with the
authentication error when no identity is present, fails with the
permission error when the subject differs from the owner and the identity
is not privileged, and returns the identity otherwise, the privileged
flag being the only bypass. -/
theorem requireOwnership_spec (user : Option JWTPayload) (ownerId : String) :
    requireOwnership user ownerId = specOwnershipGuard user ownerId := by
  rcases user with _ | u
  · rfl
  · simp only [requireOwnership, requireAuth, specOwnershipGuard]
    by_cases h1 : u.userId = ownerId <;> by_cases h2 : u.isAdmin <;> simp [h1, h2]

/-- C6: every batch-loader function returns one result per requested key
in request order: both shapes preserve the key-list length; at each
position the by-id loader yields null exactly when no fetched row
matches the key, and any row it yields matches the key and comes from the
fetched set; the relationship loader yields exactly the fetched rows
whose relationship key equals the requested key. -/
theorem loaders_key_correspondence {α : Type} (key : α → String) (ids : List String)
    (fetched : List α) :
    (batchById key ids fetched).length = ids.length ∧
    (batchByRelationship key ids fetched).length = ids.length ∧
    (∀ i : Nat, i < ids.length →
      ((batchById key ids fetched).getD i none = none ↔
        ∀ v ∈ fetched, ¬key v = ids.getD i "") ∧
      (∀ v, (batchById key ids fetched).getD i none = some v →
        key v = ids.getD i "" ∧ v ∈ fetched) ∧
      (∀ v, v ∈ (batchByRelationship key ids fetched).getD i [] ↔
        v ∈ fetched ∧ key v = ids.getD i "")) := by
  refine ⟨by simp [batchById], by simp [batchByRelationship], ?_⟩
  intro i hi
  have hbid : (batchById key ids fetched).getD i none =
      fetched.find? (fun v => key v == ids.getD i "") := by
    unfold batchById
    rw [List.getD_eq_getElem?_getD, List.getElem?_map, List.getElem?_eq_getElem hi,
      List.getD_eq_getElem ids "" hi]
    simp
  have hrel : (batchByRelationship key ids fetched).getD i [] =
      fetched.filter (fun v => key v == ids.getD i "") := by
    unfold batchByRelationship
    rw [List.getD_eq_getElem?_getD, List.getElem?_map, List.getElem?_eq_getElem hi,
      List.getD_eq_getElem ids "" hi]
    simp
  refine ⟨?_, ?_, ?_⟩
  · rw [hbid, List.find?_eq_none]
    simp
  · intro v hv
    rw [hbid] at hv
    have h1 := List.find?_some hv
    have h2 := List.mem_of_find?_eq_some hv
    simp only [beq_iff_eq] at h1
    exact ⟨h1, h2⟩
  · intro v
    rw [hrel, List.mem_filter]
    simp

/-- Witness for C6: two requested keys against one fetched row; the
missing second key resolves to null and the length is preserved. -/
theorem loaders_key_correspondence_witness :
    (batchById (fun s : String => s) ["u1", "u2"] ["u1"]).getD 1 none = none ∧
    (batchById (fun s : String => s) ["u1", "u2"] ["u1"]).length = 2 :=
  ⟨((loaders_key_correspondence (fun s : String => s) ["u1", "u2"] ["u1"]).2.2 1
      (by decide)).1.mpr (by decide),
   by simpa using (loaders_key_correspondence (fun s : String => s) ["u1", "u2"] ["u1"]).1⟩
